import Mathlib

/-!
Shallow embedding of the calibrator flux resolution pipeline of the
SDRAST/Radio_Astronomy repository (modules `vla_cal.py`, `michigan.py`,
`radio_flux.py` and the package `__init__.py`), together with theorems
settling the claims of the specification against it.

Python floats are modelled as exact rationals (`ℚ`) in the catalog and
time-series code, and as reals (`ℝ`) in the planetary physics code where
transcendental functions occur.  Python exceptions are modelled with an
explicit error type `PyErr` and `Except`; a Python function that can raise
is embedded as an `Except PyErr`-valued function.
-/

/-- The Python exceptions that the embedded code can raise. -/
inductive PyErr where
  | valueError
  | keyError
  | indexError
  | nameError        -- a global name that does not exist (e.g. `Ephem`, `cat_3C`)
  | unboundLocal     -- a local variable referenced before assignment (e.g. `bnames`)
  | zeroDivision
  | typeError
  deriving DecidableEq, Repr

/-- A Python value stored in a calibrator record: `None`, a float
(modelled as `ℚ`), or a string (modelled as a list of characters). -/
inductive PyVal where
  | pnone
  | num (q : ℚ)
  | str (s : List Char)
  deriving DecidableEq, Repr

/-! ## Linear least-squares fit (`scipy.polyfit(x, y, 1)` / `polyval`)

`scipy.polyfit(x, y, 1)` computes the degree-1 least-squares fit
`ar*x + br` through the sample points; `polyval([ar, br], x)` evaluates it.
We embed the closed-form normal-equation solution over `ℚ`; the embedding
agrees with the floating-point routine wherever the system is
non-degenerate (distinct abscissae), which is the case in every claim. -/

/-- Sum of pairwise products, `Σ xᵢ·yᵢ`. -/
def dotSum (xs ys : List ℚ) : ℚ := ((xs.zip ys).map (fun p => p.1 * p.2)).sum

/-- Degree-1 least squares fit: returns `(ar, br)` with model `ar*x + br`. -/
def polyfit1 (xs ys : List ℚ) : ℚ × ℚ :=
  let n : ℚ := xs.length
  let sx := xs.sum
  let sy := ys.sum
  let sxx := (xs.map (fun x => x * x)).sum
  let sxy := dotSum xs ys
  let d := n * sxx - sx * sx
  let ar := (n * sxy - sx * sy) / d
  let br := (sy - ar * sx) / n
  (ar, br)

/-- `polyval([ar,br], x)` for a degree-1 polynomial. -/
def polyval1 (p : ℚ × ℚ) (x : ℚ) : ℚ := p.1 * x + p.2

/-! ## `vla_cal.interpolate_flux` -/

/-- Embedding of `vla_cal.interpolate_flux(freqs, fluxes, freq)`:

```
if len(freqs) < 1:   return None
elif len(freqs) == 1: return fluxes[0]
elif len(freqs) > 1: (ar,br) = polyfit(freqs,fluxes,1); return polyval([ar,br],freq)
```

`fluxes[0]` on an empty `fluxes` raises `IndexError`; `polyfit` with
mismatched list lengths raises (`TypeError`). -/
def interpolate_flux (freqs fluxes : List ℚ) (freq : ℚ) : Except PyErr (Option ℚ) :=
  if freqs.length < 1 then .ok none
  else if freqs.length = 1 then
    match fluxes with
    | [] => .error .indexError
    | y :: _ => .ok (some y)
  else
    if freqs.length ≠ fluxes.length then .error .typeError
    else .ok (some (polyval1 (polyfit1 freqs fluxes) freq))

/-! ## `michigan.polate_flux` — time-axis (inter/extra)polation of one channel

`polate_flux(Jname, datenum, freq)` loops over the frequency channels of a
source; for each channel (an ascending time series `datenums` with aligned
`fluxes`) it computes one time-axis estimate (`michigan.py` lines 78–106).
`polate_flux_time` embeds that per-channel loop body.

`nearest_index` comes from the external `Data_Reduction` package.
Modelled from the spec: `nearest_index(arr, value)` returns the index of
the sample of `arr` nearest to `value` (the first index attaining the
minimal absolute distance), the usual meaning that the phrase of the spec
"select a trailing window ... back past the last sample" relies on. -/

instance {ε α : Type} [DecidableEq ε] [DecidableEq α] : DecidableEq (Except ε α) :=
  fun a b =>
    match a, b with
    | .ok x, .ok y =>
        if h : x = y then isTrue (by rw [h]) else isFalse (by simp [h])
    | .error x, .error y =>
        if h : x = y then isTrue (by rw [h]) else isFalse (by simp [h])
    | .ok _, .error _ => isFalse (by simp)
    | .error _, .ok _ => isFalse (by simp)

/-- `abs` on `ℚ`, written so that it evaluates by `simp`/`norm_num`. -/
def ratAbs (q : ℚ) : ℚ := if q < 0 then -q else q

/-- Python `seq[-1]` as an `Option`: the last element of a list. -/
def pyLast : List ℚ → Option ℚ
  | [] => none
  | [x] => some x
  | _ :: x :: xs => pyLast (x :: xs)

/-- Python `seq[0]` on a list known to be non-empty (default `0`). -/
def pyHead : List ℚ → ℚ
  | [] => 0
  | x :: _ => x

/-- Scan for the first index minimizing the distance to `x`:
`i` is the index of the head of the remaining list, `bi`/`bd` the best
index and distance so far. -/
def nearestAux (x : ℚ) : List ℚ → ℕ → ℕ → ℚ → ℕ
  | [], _, bi, _ => bi
  | t :: ts, i, bi, bd =>
    let d := ratAbs (t - x)
    if d < bd then nearestAux x ts (i + 1) i d else nearestAux x ts (i + 1) bi bd

/-- First index of `xs` minimizing `|xs[i] - x|`; `0` on the empty list. -/
def nearestIndex (xs : List ℚ) (x : ℚ) : ℕ :=
  match xs with
  | [] => 0
  | t :: ts => nearestAux x ts 1 0 (ratAbs (t - x))

/-- Guarded degree-1 fit-and-evaluate, raising `TypeError` on an empty
sample window exactly where `scipy.polyfit` raises. -/
def fitEval : List ℚ → List ℚ → ℚ → Except PyErr ℚ
  | [], _, _ => .error .typeError
  | x1 :: xs, ys, x => .ok (polyval1 (polyfit1 (x1 :: xs) ys) x)

/-- `first_index = max(ref_index-4, 0)` of the in-range branch. -/
def windowLo (r : ℕ) : ℕ := (max ((r : ℤ) - 4) 0).toNat

/-- `last_index = min(ref_index+4, max_index)` of the in-range branch. -/
def windowHi (r maxIdx : ℕ) : ℕ := min (r + 4) maxIdx

/-- Embedding of the per-channel body of `michigan.polate_flux`
(lines 80–106), for one time series `times` (ascending `datenums`) with
aligned `fluxes` and query time `datenum`:

```
if datenum > datenums[-1]:        # extrapolate forward
    timedelta = datenum - datenums[-1]
    ref_index = nearest_index(datenums, datenums[-1]-timedelta)
    timedata = datenums[ref_index:-1]; fluxdata = fluxes[key][ref_index:-1]
    (ar,br) = polyfit(timedata,fluxdata,1); guess = polyval([ar,br],datenum)
elif datenum < datenums[0]:       # extrapolate backward
    time_delta = datenums[0] - datenum
    ref_index = nearest_index(datenums,datenums[0]+timedelta)   # BUG: `timedelta` unbound
    ...
else:
    ref_index = nearest_index(datenums,datenum)
    max_index = len(datenums)-1
    first_index = max(ref_index-4,0); last_index = min(ref_index+4,max_index)
    timedata = datenums[first_index:last_index]; fluxdata = fluxes[key][first_index:last_index]
    (ar,br) = polyfit(timedata,fluxdata,1); guess = polyval([ar,br],datenum)
```

Python slices `seq[a:-1]` / `seq[a:b]` are embedded with `drop`/`dropLast`/
`take` (the lists have equal length, as the aligned per-channel lists built
by `get_flux_data` do).  In the backward branch the code reads `timedelta`,
which on this path was never assigned (only `time_delta` was), so the
branch raises `NameError`; an empty series raises `IndexError` at
`datenums[-1]`. -/
def polate_flux_time (times fluxes : List ℚ) (datenum : ℚ) : Except PyErr ℚ :=
  match pyLast times with
  | none => .error .indexError
  | some lastT =>
    if datenum > lastT then
      -- extrapolate forward
      let timedelta := datenum - lastT
      let r := nearestIndex times (lastT - timedelta)
      let timedata := (times.drop r).dropLast
      let fluxdata := (fluxes.drop r).dropLast
      fitEval timedata fluxdata datenum
    else if datenum < pyHead times then
      -- extrapolate backward: references the unbound local `timedelta`
      .error .nameError
    else
      let r := nearestIndex times datenum
      let maxIdx := times.length - 1
      let fi := windowLo r
      let li := windowHi r maxIdx
      let timedata := (times.drop fi).take (li - fi)
      let fluxdata := (fluxes.drop fi).take (li - fi)
      fitEval timedata fluxdata datenum

/-- Definition following the words of the SPEC for claim C7 (for comparison with
the source embedding `polate_flux_time`): a linear fit over "exactly the
trailing window of samples whose timestamps lie within (query time − last
timestamp) before the last sample, including the last sample itself". -/
def specTrailingWindowEstimate (times fluxes : List ℚ) (datenum : ℚ) :
    Except PyErr ℚ :=
  match pyLast times with
  | none => .error .indexError
  | some lastT =>
    let timedelta := datenum - lastT
    let cutoff := lastT - timedelta
    let window := (times.zip fluxes).filter (fun p => cutoff ≤ p.1)
    fitEval (window.map (fun p => p.1)) (window.map (fun p => p.2)) datenum

/-- Definition following the words of the SPEC for claim C8 (for comparison with
the source embedding): a linear fit over "the sample nearest to the query
time plus up to 4 samples on each side of it (at most 9 samples total),
with the window clipped at the first and last sample": the inclusive index
range `max(r-4,0) .. min(r+4, n-1)`. -/
def specNineSampleEstimate (times fluxes : List ℚ) (datenum : ℚ) :
    Except PyErr ℚ :=
  let r := nearestIndex times datenum
  let fi := windowLo r
  let li := windowHi r (times.length - 1)
  fitEval ((times.drop fi).take (li + 1 - fi)) ((fluxes.drop fi).take (li + 1 - fi))
    datenum

/-! ## `vla_cal` name resolution

Source names are modelled as `List Char` (Python `str`).  The records of
`vla_cal` are Python dicts from string keys to floats/strings/`None`
(`PyVal`); the catalog is a dict from J-names to records.  Python dicts are
modelled as association lists with unique keys: lookup takes the first
match and assignment overwrites in place. -/

/-- Association-list lookup (`d[k]` /`d.has_key(k)`). -/
def dlookup {β : Type} (k : List Char) : List (List Char × β) → Option β
  | [] => none
  | (k1, v) :: t => if k1 = k then some v else dlookup k t

/-- Association-list overwrite-or-append (`d[k] = v`). -/
def dinsert {β : Type} (k : List Char) (v : β) :
    List (List Char × β) → List (List Char × β)
  | [] => [(k, v)]
  | (k1, v1) :: t => if k1 = k then (k, v) :: t else (k1, v1) :: dinsert k v t

/-- Python `str.find(c)`: index of the first occurrence of `c`, else `-1`. -/
def pyFind : List Char → Char → ℤ
  | [], _ => -1
  | a :: t, c =>
    if a = c then 0
    else
      let r := pyFind t c
      if r < 0 then -1 else r + 1

/-- Embedding of `vla_cal.IAU_name_parts(name)`:

```
index = max(name.find('-'),name.find('+'))+1
ra_part = name[:index-1]
dec_part = name[index:]
```

When neither sign occurs, `index = 0` and the negative Python slice makes
`ra_part = name[:-1]` (the name without its final character) while
`dec_part` is the whole name. -/
def IAU_name_parts (name : List Char) : List Char × List Char :=
  let index := max (pyFind name '-') (pyFind name '+') + 1
  if index = 0 then (name.dropLast, name)
  else (name.take (index - 1).toNat, name.drop index.toNat)

/-- Numeric value of a decimal digit character. -/
def digitVal (c : Char) : Option ℕ :=
  if '0' ≤ c ∧ c ≤ '9' then some (c.toNat - '0'.toNat) else none

/-- Accumulating decimal parse. -/
def parseNatAux : List Char → ℕ → Option ℕ
  | [], acc => some acc
  | c :: t, acc =>
    match digitVal c with
    | some d => parseNatAux t (acc * 10 + d)
    | none => none

/-- Python `int(s)` / `float(s)` on the declination suffix of an IAU name:
the suffixes are non-empty digit strings, parsed to a natural number;
anything else raises `ValueError` (modelled as `none`). -/
def parseNatDigits : List Char → Option ℕ
  | [] => none
  | c :: t => parseNatAux (c :: t) 0

/-- Python 2 `round`: round half away from zero, as an integer. -/
def pyRound (x : ℚ) : ℤ :=
  if 0 ≤ x then ⌊x + 1 / 2⌋ else -⌊-x + 1 / 2⌋

/-- `pow(10., missing)` with integer exponent, over `ℚ`. -/
def pyPow10 (m : ℤ) : ℚ := (10 : ℚ) ^ m

/-- The per-candidate declination test of `match_IAU_name` (lines 410–419):
`none` models a `ValueError` from `int()`/`float()` on a non-numeric
declination part; otherwise `some` of

  * `missing > 0` (query too short):
    `abs(int(name_dec) - int(round(float(key_dec)/factor))) < 2`
  * `missing < 0` (query too long):
    `abs(int(round(float(name_dec)*factor)) - int(key_dec)) < 2`

with `factor = pow(10., missing)`.  (`match_IAU_name` only runs this test
when `missing ≠ 0`.) -/
def decTest (missing : ℤ) (ndec kdec : List Char) : Option Bool :=
  match parseNatDigits ndec, parseNatDigits kdec with
  | some nd, some kd =>
    some (if missing > 0 then
            decide (|(nd : ℤ) - pyRound ((kd : ℚ) / pyPow10 missing)| < 2)
          else
            decide (|pyRound ((nd : ℚ) * pyPow10 missing) - (kd : ℤ)| < 2))
  | _, _ => none

/-- The candidate loop of `match_IAU_name` (lines 406–421): returns the
first candidate whose RA part equals the RA part of the query and whose
declination passes `decTest`; `ValueError` propagates; `None` when the
whole list is exhausted. -/
def matchLoop (missing : ℤ) (nra ndec : List Char) :
    List (List Char) → Except PyErr (Option (List Char))
  | [] => .ok none
  | cand :: rest =>
    if (IAU_name_parts cand).1 = nra then
      match decTest missing ndec (IAU_name_parts cand).2 with
      | none => .error .valueError
      | some true => .ok (some cand)
      | some false => matchLoop missing nra ndec rest
    else matchLoop missing nra ndec rest

/-- Embedding of `vla_cal.match_IAU_name(name, name_list)`: for a name of
the expected length 8 a plain list lookup (`ValueError` from
`list.index` is caught and yields `None`); otherwise the approximate
match over RA/declination parts. -/
def match_IAU_name (name : List Char) (lst : List (List Char)) :
    Except PyErr (Option (List Char)) :=
  let missing : ℤ := 8 - (name.length : ℤ)
  if missing = 0 then
    if name ∈ lst then .ok (some name) else .ok none
  else
    matchLoop missing (IAU_name_parts name).1 (IAU_name_parts name).2 lst

/-- The acceptance criterion of claim C5, as the code implements it per
candidate: identical RA prefix and rounded scaled declination difference
strictly less than 2 (`decTest`). -/
def acceptCandidate (name cand : List Char) : Bool :=
  decide ((IAU_name_parts cand).1 = (IAU_name_parts name).1) &&
    ((decTest (8 - (name.length : ℤ)) (IAU_name_parts name).2
        (IAU_name_parts cand).2).getD false)

/-- A calibrator record: a dict from string keys (`ra`, `dec`, `bname`,
`cat3c`, `mm7`, ...) to Python values. -/
abbrev CalRecord : Type := List (List Char × PyVal)

/-- The VLA calibrator catalog: a dict from J-names to records. -/
abbrev Catalog : Type := List (List Char × CalRecord)

/-- The key `bname`. -/
def bnameKey : List Char := ['b', 'n', 'a', 'm', 'e']

/-- The key `cat3c`. -/
def cat3cKey : List Char := ['c', 'a', 't', '3', 'c']

/-- Accumulator pass of `VLA_name_xref`: iterates the catalog entries in
dict order (the `keys.sort` in the source lacks the call parentheses, so
it does not sort), inserting `record['bname'] -> key` and
`record['cat3c'] -> key` into the two cross-reference dicts.  The scraped
`bname`/`cat3c` values are strings; entries of any other shape are not
inserted. -/
def xrefAux :
    Catalog → List (List Char × List Char) × List (List Char × List Char) →
    List (List Char × List Char) × List (List Char × List Char)
  | [], acc => acc
  | (key, rec) :: t, (bd, cd) =>
    let bd1 := match dlookup bnameKey rec with
      | some (.str b) => dinsert b key bd
      | _ => bd
    let cd1 := match dlookup cat3cKey rec with
      | some (.str c) => dinsert c key cd
      | _ => cd
    xrefAux t (bd1, cd1)

/-- Embedding of `vla_cal.VLA_name_xref(cal_data)`: builds the
B-name → J-name and 3C-name → J-name cross-reference dicts. -/
def VLA_name_xref (cal_data : Catalog) :
    List (List Char × List Char) × List (List Char × List Char) :=
  xrefAux cal_data ([], [])

/-- The environment `get_cal_data` runs in: the loaded `VLA_cals` catalog
(`get_cal_dict()`), and the optional pickle files `B_names` and `3C_names`
(`none` models the `IOError` of a missing file, in which case the source
falls back to `VLA_name_xref`). -/
structure CalEnv where
  data : Catalog
  bnamesFile : Option (List (List Char × List Char))
  threeCFile : Option (List (List Char × List Char))

/-- Embedding of `vla_cal.get_cal_data(source)` (lines 265–323), returning
the result together with the catalog in effect afterwards:

  * `source[0]` on an empty name raises `IndexError`;
  * `j...`: `data[source[1:]]` inside `try/except Exception` — a missing
    key yields `None`;
  * `b...`: `data[bnames[source[1:]]]` with `bnames` from the `B_names`
    pickle (or `VLA_name_xref` when the file is missing) — a missing key
    raises `KeyError`;
  * `3c..`: when the `3C_names` pickle file EXISTS, the code loads it into
    `bnames` and then evaluates `cat_3C[source]` — but `cat_3C` was never
    assigned on that path, raising `NameError`; when the file is missing,
    both dicts come from `VLA_name_xref` and a missing key raises
    `KeyError`;
  * otherwise (ambiguous): `data[source]` if present; else the code
    evaluates `bnames.has_key(source)` — but `bnames` is a local that was
    never assigned on this path, raising `UnboundLocalError`; the
    subsequent `source_data['jname'] = source` record mutation is
    unreachable. -/
def get_cal_data (source : List Char) (env : CalEnv) :
    Except PyErr (Option CalRecord) × Catalog :=
  match source with
  | [] => (.error .indexError, env.data)
  | c0 :: rest =>
    if c0.toLower = 'j' then
      match dlookup rest env.data with
      | some r => (.ok (some r), env.data)
      | none => (.ok none, env.data)
    else if c0.toLower = 'b' then
      let bnames := match env.bnamesFile with
        | some bn => bn
        | none => (VLA_name_xref env.data).1
      match dlookup rest bnames with
      | none => (.error .keyError, env.data)
      | some j =>
        match dlookup j env.data with
        | none => (.error .keyError, env.data)
        | some r => (.ok (some r), env.data)
    else if (match rest with
        | c1 :: _ => c0.toLower = '3' && c1.toLower = 'c'
        | [] => false : Bool) then
      match env.threeCFile with
      | some _ => (.error .nameError, env.data)
      | none =>
        let cd := (VLA_name_xref env.data).2
        match dlookup (c0 :: rest) cd with
        | none => (.error .keyError, env.data)
        | some j =>
          match dlookup j env.data with
          | none => (.error .keyError, env.data)
          | some r => (.ok (some r), env.data)
    else
      match dlookup (c0 :: rest) env.data with
      | some r => (.ok (some r), env.data)
      | none => (.error .unboundLocal, env.data)

/-! ## `vla_cal.get_flux_data` -/

/-- Dict insert with `ℚ` keys (`S[f] = v`): overwrite or append. -/
def dinsertQ (k : ℚ) (v : PyVal) : List (ℚ × PyVal) → List (ℚ × PyVal)
  | [] => [(k, v)]
  | (k1, v1) :: t => if k1 = k then (k, v) :: t else (k1, v1) :: dinsertQ k v t

/-- Dict lookup with `ℚ` keys (`S[f]`). -/
def dlookupQ (k : ℚ) : List (ℚ × PyVal) → Option PyVal
  | [] => none
  | (k1, v) :: t => if k1 = k then some v else dlookupQ k t

/-- The accumulation loop of `get_flux_data` (lines 492–498), iterating the
record entries in dict order:

```
for key in src_data.keys():
    if key[0:2] == "mm":
      if src_data[key] != None and src_data[key] != 0.0:
        mm = int(key[2:])
        f = 300./mm
        S[f] = src_data[key]
```

`int(key[2:])` on a non-digit suffix raises `ValueError`; `300./mm` with
`mm = 0` raises `ZeroDivisionError`. -/
def buildS : CalRecord → List (ℚ × PyVal) → Except PyErr (List (ℚ × PyVal))
  | [], acc => .ok acc
  | (k, v) :: t, acc =>
    if k.take 2 = ['m', 'm'] then
      if v ≠ PyVal.pnone ∧ v ≠ PyVal.num 0 then
        match parseNatDigits (k.drop 2) with
        | none => .error .valueError
        | some 0 => .error .zeroDivision
        | some m => buildS t (dinsertQ (300 / (m : ℚ)) v acc)
      else buildS t acc
    else buildS t acc

/-- Embedding of `vla_cal.get_flux_data(src_data)` (lines 484–504): collect
the wavelength-band fluxes that are neither `None` nor `0.0` into the dict
`S` keyed by frequency `300/mm`, then return the sorted key list `f`
(`f.sort()`) together with the aligned value list `[S[k] for k in f]`. -/
def get_flux_data (src_data : CalRecord) : Except PyErr (List ℚ × List PyVal) :=
  match buildS src_data [] with
  | .error e => .error e
  | .ok S =>
    let f := List.insertionSort (fun a b => a ≤ b) (S.map Prod.fst)
    let fluxes := f.map (fun k => (dlookupQ k S).getD PyVal.pnone)
    .ok (f, fluxes)

/-- Well-formedness of the wavelength-band keys of a record: every key
beginning with `mm` continues with a digit string denoting a positive
wavelength (the scraper builds them as `"mm" + str(int(wavelength*10))`
with wavelengths of at least 0.7 cm). -/
def mmWellFormed (src_data : CalRecord) : Prop :=
  ∀ p ∈ src_data, p.1.take 2 = ['m', 'm'] →
    ∃ m, parseNatDigits (p.1.drop 2) = some m ∧ 0 < m

/-! ## `radio_flux.get_calibrator_flux` and the planetary flux path

`radio_flux.py` computes planet fluxes through the external `ephem`
package (positions, radii, distances, phases), the external
`Physics.Radiation.Continuum.BB_intensity` blackbody intensity, and — for
Venus — an iterative `scipy.optimize.leastsq` fit.  Those external
collaborators are modelled as an oracle (`EphemOracle`); everything else
(the branch structure, the brightness-temperature formulas, the
brightness-to-flux conversion of `Radio_Astronomy.flux`) is embedded from
the source.  Frequencies, temperatures and fluxes are reals; the
observation date is an abstract type `D` threaded to the oracle. -/

/-- The external collaborators of the planetary flux path. -/
structure EphemOracle (D : Type) where
  /-- `pl.radius` of the named planet after `pl.compute(date)`. -/
  radius : String → D → ℝ
  /-- `pl.sun_distance` of Mars at the date. -/
  sunDistance : D → ℝ
  /-- `pl.phase` of Mercury at the date. -/
  phase : D → ℝ
  /-- `BB_intensity(T, f)` of the external `Physics` package. -/
  bb : ℝ → ℝ → ℝ
  /-- `log_cubic(freq, out[0])`: the Venus brightness fit produced by the
  external `scipy.optimize.leastsq` on the hard-coded data table. -/
  venusTbFit : ℝ → ℝ

/-- `radio_flux.Planets`: the planets recognized by module `ephem`. -/
def Planets : List String :=
  ["Jupiter", "Mars", "Mercury", "Moon", "Neptune", "Pluto",
   "Saturn", "Sun", "Uranus", "Venus"]

/-- Python `str.capitalize()`: first character upper-cased, the rest
lower-cased. -/
def pyCapitalize (s : String) : String :=
  match s.toList with
  | [] => ""
  | c :: t => String.mk (c.toUpper :: t.map Char.toLower)

/-- Embedding of `radio_flux.planet_brightness(planet, freq)` for a scalar
frequency: only the Venus branch returns a value (686 K below 4 GHz, 351 K
above 75 GHz, the fitted value in between — the boundary constants are
preserved verbatim); the Sun/Jupiter/Saturn branches assign locals and
`pass`, and every other planet falls through, so the function returns
`None` for them. -/
noncomputable def planet_brightness {D : Type} (O : EphemOracle D)
    (planet : String) (freq : ℝ) : Option ℝ :=
  if planet = "Venus" then
    some (if freq ≤ 4 then 686 else if freq > 75 then 351 else O.venusTbFit freq)
  else none

/-- Embedding of `Radio_Astronomy.flux(Tb, freq, angular_diameter)`
(`__init__.py` lines 427–444): blackbody intensity at `freq*1e9` Hz times
the small-angle solid angle `pi*(diameter/2)^2`, divided by
`Jy = 1e-26`. -/
noncomputable def flux (bb : ℝ → ℝ → ℝ) (Tb freq angular_diameter : ℝ) : ℝ :=
  bb Tb (freq * 1e9) * (Real.pi * (angular_diameter / 2) ^ 2) / 1e-26

/-- Embedding of `radio_flux.get_planet_flux(planet, freq, date)`
(lines 138–203): brightness temperature per planet (Venus from the model
fit, Jupiter 157 K, Saturn 0.94·157 K, Sun 5800 K, Mars 190 K scaled by
`(1.524/sun_distance)^2`, Mercury `330*10^((0.1-0.4*phase/100)/(300/freq))`),
then `flux(Tb, freq, 2*pl.radius)`.  For `Moon`, `Neptune`, `Pluto`,
`Uranus` (and any other name) no branch assigns `pl`, so the final
`pl.name` raises `UnboundLocalError`; Mercury at `freq = 0` raises
`ZeroDivisionError` at `l = 300/freq`. -/
noncomputable def get_planet_flux {D : Type} (O : EphemOracle D)
    (planet : String) (freq : ℝ) (date : D) : Except PyErr ℝ :=
  let source := pyCapitalize planet
  if source = "Venus" then
    .ok (flux O.bb ((planet_brightness O "Venus" freq).getD 0) freq
      (2 * O.radius "Venus" date))
  else if source = "Jupiter" then
    .ok (flux O.bb 157 freq (2 * O.radius "Jupiter" date))
  else if source = "Saturn" then
    .ok (flux O.bb (0.94 * 157) freq (2 * O.radius "Saturn" date))
  else if source = "Sun" then
    .ok (flux O.bb 5800 freq (2 * O.radius "Sun" date))
  else if source = "Mars" then
    .ok (flux O.bb (190 * (1.524 / O.sunDistance date) ^ 2) freq
      (2 * O.radius "Mars" date))
  else if source = "Mercury" then
    if freq = 0 then .error .zeroDivision
    else
      .ok (flux O.bb
        (330 * (10 : ℝ) ^ ((0.1 - 0.4 * (O.phase date / 100)) / (300 / freq)))
        freq (2 * O.radius "Mercury" date))
  else .error .unboundLocal

/-- Embedding of `radio_flux.get_calibrator_flux(source, freq, date)`
(lines 205–258):

  * an exact (case-sensitive) member of `Planets` takes the planet path and
    returns `(flux, "Planet")`;
  * otherwise (`ValueError` from `Planets.index` caught) the code evaluates
    `source[1] == 'C' or source[0] == 'J' or source[0] == 'B'` — raising
    `IndexError` on names shorter than 2 characters — and on a match calls
    `Ephem.Quasar(source)`: the name `Ephem` does not exist in the module
    (only `ephem` is imported), so this branch raises `NameError`;
  * otherwise the same `Ephem.Quasar` call sits under a bare `except:`
    which swallows the `NameError`, and the function returns
    `(None, None)`. -/
noncomputable def get_calibrator_flux {D : Type} (O : EphemOracle D)
    (source : String) (freq : ℝ) (date : D) :
    Except PyErr (Option ℝ × Option String) :=
  if source ∈ Planets then
    (get_planet_flux O source freq date).map (fun fl => (some fl, some "Planet"))
  else
    match source.toList with
    | c0 :: c1 :: _ =>
      if c1 = 'C' ∨ c0 = 'J' ∨ c0 = 'B' then .error .nameError
      else .ok (none, none)
    | _ => .error .indexError

/-- A concrete oracle (all external quantities 1) for evaluating the
resolver at concrete inputs. -/
noncomputable def testOracle : EphemOracle Unit :=
  ⟨fun _ _ => 1, fun _ => 1, fun _ => 1, fun _ _ => 1, fun _ => 1⟩

/-- Claim C3: for every sample list of length exactly 1 (one frequency
paired with one flux) and every query frequency `x`,
`interpolate_flux` returns the flux value of that single sample unchanged,
independently of `x` — no polynomial fit is performed. -/
theorem C3_single_sample_returned_unchanged (f y x : ℚ) :
    interpolate_flux [f] [y] x = .ok (some y) := by
  rfl

/-- Counterexample to claim C7 as stated: for the ascending series
`times = [0,1,2,3]`, `fluxes = [0,0,0,10]` and query time `5` (strictly
after the last sample), the code fits over `datenums[ref_index:-1] = [1,2]`
(fluxes `[0,0]`), EXCLUDING the last sample, and returns `0`; the trailing window of the
claim includes the last sample `(3, 10)` and its fit returns
`55/3 ≠ 0`. -/
theorem C7_counterexample :
    polate_flux_time [0, 1, 2, 3] [0, 0, 0, 10] 5 = .ok 0 ∧
    specTrailingWindowEstimate [0, 1, 2, 3] [0, 0, 0, 10] 5 = .ok (55 / 3) ∧
    (0 : ℚ) ≠ 55 / 3 := by
  refine ⟨?_, ?_, by norm_num⟩
  · norm_num [polate_flux_time, pyLast, pyHead, nearestIndex, nearestAux, ratAbs,
      fitEval, polyfit1, polyval1, dotSum, windowLo, windowHi]
  · norm_num [specTrailingWindowEstimate, pyLast, fitEval, polyfit1, polyval1,
      dotSum, List.filter, List.zip, List.zipWith]

/-- Claim C7 as amended: for a query time strictly after the last sample,
the extrapolated flux is a linear fit over the trailing slice
`datenums[ref_index:-1]` — from the sample nearest to
`last − (query − last)` up to but EXCLUDING the last sample — so two time
series with the same such trailing slices (times and fluxes) yield
identical extrapolated values, whatever their earlier history or their
(excluded) last flux sample. -/
theorem C7_amended_trailing_slice_determines_extrapolation
    (t1 f1 t2 f2 : List ℚ) (q l1 l2 : ℚ)
    (hl1 : pyLast t1 = some l1) (hl2 : pyLast t2 = some l2)
    (hq1 : l1 < q) (hq2 : l2 < q)
    (ht : (t1.drop (nearestIndex t1 (l1 - (q - l1)))).dropLast
        = (t2.drop (nearestIndex t2 (l2 - (q - l2)))).dropLast)
    (hf : (f1.drop (nearestIndex t1 (l1 - (q - l1)))).dropLast
        = (f2.drop (nearestIndex t2 (l2 - (q - l2)))).dropLast) :
    polate_flux_time t1 f1 q = polate_flux_time t2 f2 q := by
  unfold polate_flux_time
  rw [hl1, hl2]
  simp only [if_pos hq1, if_pos hq2]
  rw [ht, hf]

/-- Witness for C7: `t1 = [0,1,2,3], f1 = [5,0,0,10]` and
`t2 = [1,2,3], f2 = [0,0,44]` differ in history and in the last flux, but
share the trailing slice `([1,2], [0,0])` at query time `5`, so the
extrapolations agree. -/
theorem C7_amended_witness :
    pyLast [0, 1, 2, 3] = some 3 ∧
    pyLast [1, 2, 3] = some 3 ∧
    (3 : ℚ) < 5 ∧
    polate_flux_time [0, 1, 2, 3] [5, 0, 0, 10] 5
      = polate_flux_time [1, 2, 3] [0, 0, 44] 5 := by
  refine ⟨by simp [pyLast], by simp [pyLast], by norm_num, ?_⟩
  exact C7_amended_trailing_slice_determines_extrapolation
    [0, 1, 2, 3] [5, 0, 0, 10] [1, 2, 3] [0, 0, 44] 5 3 3
    (by simp [pyLast]) (by simp [pyLast]) (by norm_num) (by norm_num)
    (by norm_num [nearestIndex, nearestAux, ratAbs])
    (by norm_num [nearestIndex, nearestAux, ratAbs])

/-- Counterexample to claim C8 as stated: for the in-range query `4` on the
10-sample series `times = [0..9]`, the nearest sample has index `4` and the
code fits over the half-open slice `datenums[0:8]` — only 3 samples to the
RIGHT of the nearest one (8 samples total), not 4 (9 samples): with
`fluxes = [0,0,0,0,0,0,0,0,9,0]` the sample at index 8 is in the claimed
9-sample window but not in the window of the code, so the code returns `0`
while the fit over the claimed window returns `1`. -/
theorem C8_counterexample :
    polate_flux_time [0, 1, 2, 3, 4, 5, 6, 7, 8, 9]
        [0, 0, 0, 0, 0, 0, 0, 0, 9, 0] 4 = .ok 0 ∧
    specNineSampleEstimate [0, 1, 2, 3, 4, 5, 6, 7, 8, 9]
        [0, 0, 0, 0, 0, 0, 0, 0, 9, 0] 4 = .ok 1 ∧
    (0 : ℚ) ≠ 1 := by
  refine ⟨?_, ?_, by norm_num⟩
  · norm_num [polate_flux_time, pyLast, pyHead, nearestIndex, nearestAux, ratAbs,
      fitEval, polyfit1, polyval1, dotSum, windowLo, windowHi]
  · norm_num [specNineSampleEstimate, nearestIndex, nearestAux, ratAbs,
      fitEval, polyfit1, polyval1, dotSum, windowLo, windowHi]

/-- Claim C8 as amended: for a query within the sample time range, the flux
is a linear fit over the half-open index window
`[max(r-4,0), min(r+4, n-1))` around the index `r` of the nearest sample — up to
4 samples to the left of the nearest sample but at most 3 to its right
(the sample at index `min(r+4, n-1)` is excluded, which is the nearest
sample itself when it is the last one) — a window of at most 8 samples,
not 9. -/
theorem C8_amended_window_at_most_eight
    (times fluxes : List ℚ) (q l : ℚ)
    (hl : pyLast times = some l) (hq1 : ¬ q > l) (hq2 : ¬ q < pyHead times) :
    polate_flux_time times fluxes q
      = fitEval ((times.drop (windowLo (nearestIndex times q))).take
                   (windowHi (nearestIndex times q) (times.length - 1)
                     - windowLo (nearestIndex times q)))
                ((fluxes.drop (windowLo (nearestIndex times q))).take
                   (windowHi (nearestIndex times q) (times.length - 1)
                     - windowLo (nearestIndex times q))) q
    ∧ ((times.drop (windowLo (nearestIndex times q))).take
         (windowHi (nearestIndex times q) (times.length - 1)
           - windowLo (nearestIndex times q))).length ≤ 8 := by
  constructor
  · unfold polate_flux_time
    rw [hl]
    simp only [if_neg hq1, if_neg hq2]
  · have h1 : windowHi (nearestIndex times q) (times.length - 1)
        - windowLo (nearestIndex times q) ≤ 8 := by
      unfold windowHi windowLo
      omega
    calc ((times.drop (windowLo (nearestIndex times q))).take
            (windowHi (nearestIndex times q) (times.length - 1)
              - windowLo (nearestIndex times q))).length
        ≤ windowHi (nearestIndex times q) (times.length - 1)
            - windowLo (nearestIndex times q) := by
          rw [List.length_take]; exact min_le_left _ _
      _ ≤ 8 := h1

/-- Witness for C8: the concrete in-range query on the series of the C8
counterexample instantiates the amended window characterization. -/
theorem C8_amended_witness :
    pyLast [0, 1, 2, 3, 4, 5, 6, 7, 8, 9] = some 9 ∧
    ¬ (4 : ℚ) > 9 ∧
    ¬ (4 : ℚ) < pyHead [0, 1, 2, 3, 4, 5, 6, 7, 8, 9] ∧
    (polate_flux_time [0, 1, 2, 3, 4, 5, 6, 7, 8, 9]
        [0, 0, 0, 0, 0, 0, 0, 0, 9, 0] 4
      = fitEval ((([0, 1, 2, 3, 4, 5, 6, 7, 8, 9] : List ℚ).drop
                   (windowLo (nearestIndex [0, 1, 2, 3, 4, 5, 6, 7, 8, 9] 4))).take
                   (windowHi (nearestIndex [0, 1, 2, 3, 4, 5, 6, 7, 8, 9] 4) 9
                     - windowLo (nearestIndex [0, 1, 2, 3, 4, 5, 6, 7, 8, 9] 4)))
                ((([0, 0, 0, 0, 0, 0, 0, 0, 9, 0] : List ℚ).drop
                   (windowLo (nearestIndex [0, 1, 2, 3, 4, 5, 6, 7, 8, 9] 4))).take
                   (windowHi (nearestIndex [0, 1, 2, 3, 4, 5, 6, 7, 8, 9] 4) 9
                     - windowLo (nearestIndex [0, 1, 2, 3, 4, 5, 6, 7, 8, 9] 4))) 4) := by
  refine ⟨by simp [pyLast], by norm_num, by norm_num [pyHead], ?_⟩
  have h := C8_amended_window_at_most_eight
    [0, 1, 2, 3, 4, 5, 6, 7, 8, 9] [0, 0, 0, 0, 0, 0, 0, 0, 9, 0] 4 9
    (by simp [pyLast]) (by norm_num) (by norm_num [pyHead])
  exact h.1

/-- If the candidate loop returns a candidate, that candidate is in the
list, has a matching RA part, and passed the declination test. -/
theorem matchLoop_ok_some {m : ℤ} {nra ndec : List Char}
    {lst : List (List Char)} {c : List Char}
    (h : matchLoop m nra ndec lst = .ok (some c)) :
    c ∈ lst ∧ (IAU_name_parts c).1 = nra ∧
      decTest m ndec (IAU_name_parts c).2 = some true := by
  induction lst with
  | nil => simp [matchLoop] at h
  | cons cand rest ih =>
    rw [matchLoop] at h
    by_cases hra : (IAU_name_parts cand).1 = nra
    · rw [if_pos hra] at h
      cases hdt : decTest m ndec (IAU_name_parts cand).2 with
      | none => rw [hdt] at h; cases h
      | some b =>
        cases b
        · rw [hdt] at h
          rcases ih h with ⟨h1, h2, h3⟩
          exact ⟨List.mem_cons_of_mem _ h1, h2, h3⟩
        · rw [hdt] at h
          simp only [Except.ok.injEq, Option.some.injEq] at h
          subst h
          exact ⟨List.mem_cons_self _ _, hra, hdt⟩
    · rw [if_neg hra] at h
      rcases ih h with ⟨h1, h2, h3⟩
      exact ⟨List.mem_cons_of_mem _ h1, h2, h3⟩

/-- If the candidate loop exhausts the list, no candidate both matched the
RA part and passed the declination test. -/
theorem matchLoop_ok_none {m : ℤ} {nra ndec : List Char}
    {lst : List (List Char)}
    (h : matchLoop m nra ndec lst = .ok none) :
    ∀ c ∈ lst, ¬((IAU_name_parts c).1 = nra ∧
      decTest m ndec (IAU_name_parts c).2 = some true) := by
  induction lst with
  | nil => intro c hc; cases hc
  | cons cand rest ih =>
    rw [matchLoop] at h
    intro c hc
    rcases List.mem_cons.mp hc with rfl | hc
    · rintro ⟨hra, hdt⟩
      rw [if_pos hra, hdt] at h
      cases h
    · by_cases hra : (IAU_name_parts cand).1 = nra
      · rw [if_pos hra] at h
        cases hdt : decTest m ndec (IAU_name_parts cand).2 with
        | none => rw [hdt] at h; cases h
        | some b =>
          cases b
          · rw [hdt] at h; exact ih h c hc
          · rw [hdt] at h; cases h
      · rw [if_neg hra] at h
        exact ih h c hc

/-- Under well-formed (digit-string) declination parts the candidate loop
never raises. -/
theorem matchLoop_no_error {m : ℤ} {nra ndec : List Char}
    {lst : List (List Char)}
    (hnd : (parseNatDigits ndec).isSome)
    (hwf : ∀ c ∈ lst, (parseNatDigits (IAU_name_parts c).2).isSome) :
    ∃ r, matchLoop m nra ndec lst = .ok r := by
  induction lst with
  | nil => exact ⟨none, rfl⟩
  | cons cand rest ih =>
    have hrest : ∀ c ∈ rest, (parseNatDigits (IAU_name_parts c).2).isSome :=
      fun c hc => hwf c (List.mem_cons_of_mem _ hc)
    rw [matchLoop]
    by_cases hra : (IAU_name_parts cand).1 = nra
    · rw [if_pos hra]
      rcases Option.isSome_iff_exists.mp hnd with ⟨nd, hnd1⟩
      rcases Option.isSome_iff_exists.mp
        (hwf cand (List.mem_cons_self _ _)) with ⟨kd, hkd1⟩
      have hdt : ∃ b, decTest m ndec (IAU_name_parts cand).2 = some b := by
        unfold decTest
        rw [hnd1, hkd1]
        exact ⟨_, rfl⟩
      rcases hdt with ⟨b, hb⟩
      rw [hb]
      cases b
      · exact ih hrest
      · exact ⟨some cand, rfl⟩
    · rw [if_neg hra]
      exact ih hrest

/-- `acceptCandidate` holds exactly when the RA parts agree and the
declination test passes. -/
theorem acceptCandidate_eq_true {name cand : List Char} :
    acceptCandidate name cand = true ↔
    ((IAU_name_parts cand).1 = (IAU_name_parts name).1 ∧
      decTest (8 - (name.length : ℤ)) (IAU_name_parts name).2
        (IAU_name_parts cand).2 = some true) := by
  unfold acceptCandidate
  cases hdt : decTest (8 - (name.length : ℤ)) (IAU_name_parts name).2
      (IAU_name_parts cand).2 with
  | none => simp
  | some b => cases b <;> simp

/-- Claim C5: for a query fragment whose length differs from 8, the
approximate matcher accepts exactly the candidates whose RA prefix equals
the RA prefix of the query and whose declination suffix, after the
power-of-ten scaling by the length difference and Python rounding, differs
from the declination suffix of the query by strictly less than 2
(`acceptCandidate` is that criterion verbatim): a returned candidate always
satisfies it (so a difference of 2 or more never matches), an exhausted
search means no candidate satisfied it, and — when the declination parts
are digit strings — the matcher always returns instead of raising. -/
theorem C5_approximate_match_characterization
    (name : List Char) (lst : List (List Char))
    (hlen : name.length ≠ 8)
    (hnd : (parseNatDigits (IAU_name_parts name).2).isSome)
    (hwf : ∀ c ∈ lst, (parseNatDigits (IAU_name_parts c).2).isSome) :
    (∀ c, match_IAU_name name lst = .ok (some c) →
        c ∈ lst ∧ acceptCandidate name c = true)
  ∧ (match_IAU_name name lst = .ok none →
        ∀ c ∈ lst, acceptCandidate name c = false)
  ∧ (∃ r, match_IAU_name name lst = .ok r) := by
  have hm : (8 : ℤ) - (name.length : ℤ) ≠ 0 := by
    intro h
    apply hlen
    omega
  have hunfold : match_IAU_name name lst
      = matchLoop (8 - (name.length : ℤ)) (IAU_name_parts name).1
          (IAU_name_parts name).2 lst := by
    unfold match_IAU_name
    rw [if_neg hm]
  refine ⟨?_, ?_, ?_⟩
  · intro c hc
    rw [hunfold] at hc
    rcases matchLoop_ok_some hc with ⟨h1, h2, h3⟩
    exact ⟨h1, acceptCandidate_eq_true.mpr ⟨h2, h3⟩⟩
  · intro hnone c hc
    rw [hunfold] at hnone
    have := matchLoop_ok_none hnone c hc
    rcases h : acceptCandidate name c with _ | _
    · rfl
    · exact absurd (acceptCandidate_eq_true.mp h) this
  · rw [hunfold]
    exact matchLoop_no_error hnd hwf

/-- Witness for C5: the spec example — query `1012+53` (7 characters)
against the catalog key `1012+531`. -/
theorem C5_approximate_match_witness :
    (['1', '0', '1', '2', '+', '5', '3'] : List Char).length ≠ 8 ∧
    (parseNatDigits (IAU_name_parts ['1', '0', '1', '2', '+', '5', '3']).2).isSome ∧
    ((∀ c, match_IAU_name ['1', '0', '1', '2', '+', '5', '3']
            [['1', '0', '1', '2', '+', '5', '3', '1']] = .ok (some c) →
        c ∈ [['1', '0', '1', '2', '+', '5', '3', '1']] ∧
          acceptCandidate ['1', '0', '1', '2', '+', '5', '3'] c = true)
    ∧ (match_IAU_name ['1', '0', '1', '2', '+', '5', '3']
            [['1', '0', '1', '2', '+', '5', '3', '1']] = .ok none →
        ∀ c ∈ [['1', '0', '1', '2', '+', '5', '3', '1']],
          acceptCandidate ['1', '0', '1', '2', '+', '5', '3'] c = false)
    ∧ (∃ r, match_IAU_name ['1', '0', '1', '2', '+', '5', '3']
            [['1', '0', '1', '2', '+', '5', '3', '1']] = .ok r)) := by
  refine ⟨by decide, by decide, ?_⟩
  exact C5_approximate_match_characterization
    ['1', '0', '1', '2', '+', '5', '3'] [['1', '0', '1', '2', '+', '5', '3', '1']]
    (by decide) (by decide) (by decide)

/-- If no candidate in the list has the RA part `nra`, the candidate loop
returns `None` without raising. -/
theorem matchLoop_all_ra_mismatch {m : ℤ} {nra ndec : List Char}
    {lst : List (List Char)}
    (h : ∀ c ∈ lst, (IAU_name_parts c).1 ≠ nra) :
    matchLoop m nra ndec lst = .ok none := by
  induction lst with
  | nil => rfl
  | cons cand rest ih =>
    rw [matchLoop]
    rw [if_neg (h cand (List.mem_cons_self _ _))]
    exact ih fun c hc => h c (List.mem_cons_of_mem _ hc)

/-- Claim C6 as amended: a name fragment containing neither `+` nor `-`
resolves to the `None` (unresolved) outcome without raising, PROVIDED the
fragment is not itself a catalog key and no catalog key has an RA part
equal to the fragment without its final character.  (Without that proviso
the claim fails: the signless fragment is split as
`ra = name[:-1], dec = name`, and it can accidentally match — see the
counterexample.) -/
theorem C6_amended_signless_fragment_unresolved
    (name : List Char) (lst : List (List Char))
    (hplus : pyFind name '+' = -1) (hminus : pyFind name '-' = -1)
    (hmem : name ∉ lst)
    (hra : ∀ c ∈ lst, (IAU_name_parts c).1 ≠ name.dropLast) :
    match_IAU_name name lst = .ok none := by
  have hparts : IAU_name_parts name = (name.dropLast, name) := by
    unfold IAU_name_parts
    rw [hminus, hplus]
    norm_num
  unfold match_IAU_name
  by_cases h8 : (8 : ℤ) - (name.length : ℤ) = 0
  · rw [if_pos h8, if_neg hmem]
  · rw [if_neg h8, hparts]
    exact matchLoop_all_ra_mismatch hra

/-- Counterexample to claim C6 as stated: the fragment `00001` contains
neither `+` nor `-`, yet against the (well-formed) catalog key `0000+123`
the matcher RESOLVES it (`ra = 0000` matches, and
`|int(00001) - round(123/1000)| = |1 - 0| < 2`), returning the key instead
of the unresolved outcome. -/
theorem C6_counterexample :
    pyFind ['0', '0', '0', '0', '1'] '+' = -1 ∧
    pyFind ['0', '0', '0', '0', '1'] '-' = -1 ∧
    match_IAU_name ['0', '0', '0', '0', '1']
        [['0', '0', '0', '0', '+', '1', '2', '3']]
      = .ok (some ['0', '0', '0', '0', '+', '1', '2', '3']) := by
  refine ⟨by decide, by decide, ?_⟩
  have hp1 : IAU_name_parts ['0', '0', '0', '0', '1']
      = (['0', '0', '0', '0'], ['0', '0', '0', '0', '1']) := by decide
  have hp2 : IAU_name_parts ['0', '0', '0', '0', '+', '1', '2', '3']
      = (['0', '0', '0', '0'], ['1', '2', '3']) := by decide
  have hprq : pyRound ((123 : ℚ) / pyPow10 3) = 0 := by
    unfold pyRound pyPow10
    have h10 : ((10 : ℚ) ^ (3 : ℤ)) = 1000 := by norm_num
    rw [h10, if_pos (by norm_num)]
    exact Int.floor_eq_iff.mpr (by norm_num)
  have hdt : decTest 3 ['0', '0', '0', '0', '1'] ['1', '2', '3'] = some true := by
    unfold decTest
    have hparse1 : parseNatDigits ['0', '0', '0', '0', '1'] = some 1 := by decide
    have hparse2 : parseNatDigits ['1', '2', '3'] = some 123 := by decide
    rw [hparse1, hparse2]
    norm_num [hprq]
  unfold match_IAU_name
  rw [if_neg (by decide)]
  rw [hp1, matchLoop, hp2]
  simp +decide [hdt]

/-- Witness for C6: the fragment `virgo` (no `+`, no `-`) against a
catalog whose single key is `1012+531` is signalled unresolved (`None`)
without an exception. -/
theorem C6_amended_witness :
    pyFind ['v', 'i', 'r', 'g', 'o'] '+' = -1 ∧
    pyFind ['v', 'i', 'r', 'g', 'o'] '-' = -1 ∧
    (['v', 'i', 'r', 'g', 'o'] : List Char)
        ∉ [['1', '0', '1', '2', '+', '5', '3', '1']] ∧
    match_IAU_name ['v', 'i', 'r', 'g', 'o']
        [['1', '0', '1', '2', '+', '5', '3', '1']] = .ok none := by
  refine ⟨by decide, by decide, by decide, ?_⟩
  exact C6_amended_signless_fragment_unresolved
    ['v', 'i', 'r', 'g', 'o'] [['1', '0', '1', '2', '+', '5', '3', '1']]
    (by decide) (by decide) (by decide) (by decide)

/-- Claim C4 is the intent of the code, but the code has a slip: in the
ambiguous branch of `get_cal_data` (no `j`/`b`/`3c` prefix), a name that is
not a direct catalog key reaches `elif bnames.has_key(source)` where the
local `bnames` was never assigned, raising `UnboundLocalError` instead of
returning the explicit not-found outcome `None` that the very next lines
(`module_logger.error(...); source_data = None`) show was intended.
Evaluation at the failing input `0000+000` against a catalog that does not
contain it: -/
theorem C4_code_bug_ambiguous_name_raises :
    (get_cal_data ['0', '0', '0', '0', '+', '0', '0', '0']
      ⟨[(['1', '2', '3', '4', '+', '5', '6', '7'], [])], none, none⟩).1
      = .error .unboundLocal := by
  decide

/-- Claim C9: `get_cal_data` never mutates the catalog store: for every
source name and environment, the catalog after resolution — through the
J-name, B-name, 3C and ambiguous paths alike — is exactly the loaded one.
(The one record-mutating statement in the source,
`source_data["jname"] = source`, is unreachable: it sits behind the
`bnames.has_key(source)` test that always raises first.) -/
theorem C9_get_cal_data_preserves_catalog (source : List Char) (env : CalEnv) :
    (get_cal_data source env).2 = env.data := by
  unfold get_cal_data
  rcases source with _ | ⟨c0, rest⟩
  · rfl
  · dsimp only
    repeat' first
      | rfl
      | split

/-- Membership after a dict insert: the new pair or an old pair. -/
theorem mem_dinsertQ {p : ℚ × PyVal} {k : ℚ} {v : PyVal}
    {S : List (ℚ × PyVal)} (h : p ∈ dinsertQ k v S) :
    p = (k, v) ∨ p ∈ S := by
  induction S with
  | nil => simpa [dinsertQ] using h
  | cons hd t ih =>
    rcases hd with ⟨k1, v1⟩
    rw [dinsertQ] at h
    by_cases hk : k1 = k
    · rw [if_pos hk] at h
      rcases List.mem_cons.mp h with rfl | h
      · exact Or.inl rfl
      · exact Or.inr (List.mem_cons_of_mem _ h)
    · rw [if_neg hk] at h
      rcases List.mem_cons.mp h with rfl | h
      · exact Or.inr (List.mem_cons_self _ _)
      · rcases ih h with h1 | h1
        · exact Or.inl h1
        · exact Or.inr (List.mem_cons_of_mem _ h1)

/-- The key multiset of a dict insert: unchanged on overwrite, the new key
appended otherwise. -/
theorem keys_dinsertQ (k : ℚ) (v : PyVal) (S : List (ℚ × PyVal)) :
    (dinsertQ k v S).map Prod.fst =
      if k ∈ S.map Prod.fst then S.map Prod.fst
      else S.map Prod.fst ++ [k] := by
  induction S with
  | nil => simp [dinsertQ]
  | cons hd t ih =>
    rcases hd with ⟨k1, v1⟩
    rw [dinsertQ]
    by_cases hk : k1 = k
    · subst hk
      simp
    · rw [if_neg hk]
      by_cases hmem : k ∈ t.map Prod.fst
      · simp only [List.map_cons, ih, if_pos hmem]
        rw [if_pos]
        exact List.mem_cons_of_mem _ hmem
      · simp only [List.map_cons, ih, if_neg hmem]
        rw [if_neg]
        · simp
        · intro hc
          rcases List.mem_cons.mp hc with h1 | h1
          · exact hk h1.symm
          · exact hmem h1

/-- A dict insert preserves distinctness of keys. -/
theorem nodup_keys_dinsertQ {k : ℚ} {v : PyVal} {S : List (ℚ × PyVal)}
    (h : (S.map Prod.fst).Nodup) :
    ((dinsertQ k v S).map Prod.fst).Nodup := by
  rw [keys_dinsertQ]
  by_cases hmem : k ∈ S.map Prod.fst
  · rwa [if_pos hmem]
  · rw [if_neg hmem]
    rw [List.nodup_append]
    exact ⟨h, List.nodup_singleton _, by simpa using hmem⟩

/-- A key present in the dict looks up to a value paired with it. -/
theorem dlookupQ_mem {k : ℚ} {S : List (ℚ × PyVal)}
    (h : k ∈ S.map Prod.fst) :
    ∃ v, dlookupQ k S = some v ∧ (k, v) ∈ S := by
  induction S with
  | nil => simp at h
  | cons hd t ih =>
    rcases hd with ⟨k1, v1⟩
    rw [dlookupQ]
    by_cases hk : k1 = k
    · subst hk
      exact ⟨v1, by rw [if_pos rfl], List.mem_cons_self _ _⟩
    · rw [if_neg hk]
      simp only [List.map_cons, List.mem_cons] at h
      rcases h with h1 | h1
      · exact absurd h1.symm hk
      · rcases ih h1 with ⟨v, hv1, hv2⟩
        exact ⟨v, hv1, List.mem_cons_of_mem _ hv2⟩

/-- The property claim C10 asserts of each entry of the dict `S`: its value
is a record value under an `mm` key, neither `None` nor zero, and its key
is the frequency `300/mm`. -/
def entryFromRecord (src_data : CalRecord) (p : ℚ × PyVal) : Prop :=
  ∃ k m, (k, p.2) ∈ src_data ∧ k.take 2 = ['m', 'm'] ∧
    parseNatDigits (k.drop 2) = some m ∧ 0 < m ∧ p.1 = 300 / (m : ℚ) ∧
    p.2 ≠ PyVal.pnone ∧ p.2 ≠ PyVal.num 0

/-- Every entry of the dict built by `buildS` is either inherited from the
accumulator or harvested from a well-formed `mm` entry of the record. -/
theorem buildS_mem {l : CalRecord} {acc S : List (ℚ × PyVal)}
    (h : buildS l acc = .ok S) :
    ∀ p ∈ S, p ∈ acc ∨ entryFromRecord l p := by
  induction l generalizing acc with
  | nil =>
    intro p hp
    rw [buildS] at h
    simp only [Except.ok.injEq] at h
    subst h
    exact Or.inl hp
  | cons hd t ih =>
    rcases hd with ⟨k, v⟩
    intro p hp
    rw [buildS] at h
    by_cases hmm : k.take 2 = ['m', 'm']
    · rw [if_pos hmm] at h
      by_cases hv : v ≠ PyVal.pnone ∧ v ≠ PyVal.num 0
      · rw [if_pos hv] at h
        cases hparse : parseNatDigits (k.drop 2) with
        | none => rw [hparse] at h; cases h
        | some m =>
          rw [hparse] at h
          match m, h with
          | 0, h => cases h
          | (m + 1), h =>
            rcases ih h p hp with hacc | hrec
            · rcases mem_dinsertQ hacc with rfl | hacc1
              · refine Or.inr ⟨k, m + 1, List.mem_cons_self _ _, hmm, hparse,
                  Nat.succ_pos m, rfl, hv.1, hv.2⟩
              · exact Or.inl hacc1
            · rcases hrec with ⟨k1, m1, hk1, hrest⟩
              exact Or.inr ⟨k1, m1, List.mem_cons_of_mem _ hk1, hrest⟩
      · rw [if_neg hv] at h
        rcases ih h p hp with hacc | hrec
        · exact Or.inl hacc
        · rcases hrec with ⟨k1, m1, hk1, hrest⟩
          exact Or.inr ⟨k1, m1, List.mem_cons_of_mem _ hk1, hrest⟩
    · rw [if_neg hmm] at h
      rcases ih h p hp with hacc | hrec
      · exact Or.inl hacc
      · rcases hrec with ⟨k1, m1, hk1, hrest⟩
        exact Or.inr ⟨k1, m1, List.mem_cons_of_mem _ hk1, hrest⟩

/-- `buildS` preserves distinctness of the dict keys. -/
theorem buildS_nodup {l : CalRecord} {acc S : List (ℚ × PyVal)}
    (hacc : (acc.map Prod.fst).Nodup) (h : buildS l acc = .ok S) :
    (S.map Prod.fst).Nodup := by
  induction l generalizing acc with
  | nil =>
    rw [buildS] at h
    simp only [Except.ok.injEq] at h
    subst h
    exact hacc
  | cons hd t ih =>
    rcases hd with ⟨k, v⟩
    rw [buildS] at h
    by_cases hmm : k.take 2 = ['m', 'm']
    · rw [if_pos hmm] at h
      by_cases hv : v ≠ PyVal.pnone ∧ v ≠ PyVal.num 0
      · rw [if_pos hv] at h
        cases hparse : parseNatDigits (k.drop 2) with
        | none => rw [hparse] at h; cases h
        | some m =>
          rw [hparse] at h
          match m, h with
          | 0, h => cases h
          | (m + 1), h => exact ih (nodup_keys_dinsertQ hacc) h
      · rw [if_neg hv] at h
        exact ih hacc h
    · rw [if_neg hmm] at h
      exact ih hacc h

/-- Under well-formed `mm` keys, `buildS` never raises. -/
theorem buildS_ok {l : CalRecord} (hwf : mmWellFormed l)
    (acc : List (ℚ × PyVal)) : ∃ S, buildS l acc = .ok S := by
  induction l generalizing acc with
  | nil => exact ⟨acc, rfl⟩
  | cons hd t ih =>
    rcases hd with ⟨k, v⟩
    have hwft : mmWellFormed t :=
      fun p hp hmm => hwf p (List.mem_cons_of_mem _ hp) hmm
    rw [buildS]
    by_cases hmm : k.take 2 = ['m', 'm']
    · rw [if_pos hmm]
      by_cases hv : v ≠ PyVal.pnone ∧ v ≠ PyVal.num 0
      · rw [if_pos hv]
        rcases hwf (k, v) (List.mem_cons_self _ _) hmm with ⟨m, hm1, hm2⟩
        rw [hm1]
        match m, hm2 with
        | (m + 1), _ => exact ih hwft (dinsertQ (300 / ((m + 1 : ℕ) : ℚ)) v acc)
      · rw [if_neg hv]
        exact ih hwft acc
    · rw [if_neg hmm]
      exact ih hwft acc

/-- A pair drawn from a list zipped with its own image under `g`. -/
theorem mem_zip_map {l : List ℚ} {g : ℚ → PyVal} {p : ℚ × PyVal}
    (hp : p ∈ l.zip (l.map g)) : p.1 ∈ l ∧ p.2 = g p.1 := by
  induction l with
  | nil => cases hp
  | cons a t ih =>
    rw [List.map_cons, List.zip_cons_cons] at hp
    rcases List.mem_cons.mp hp with rfl | hp
    · exact ⟨List.mem_cons_self _ _, rfl⟩
    · rcases ih hp with ⟨h1, h2⟩
      exact ⟨List.mem_cons_of_mem _ h1, h2⟩

/-- Claim C10: for a record whose `mm` keys are well formed,
`get_flux_data` returns a frequency list in strictly ascending order with
an index-aligned flux list: every `(frequency, flux)` pair comes from a
record entry under an `mm` key with flux neither `None` nor zero and
frequency `300/mm` (`entryFromRecord`); entries with absent or zero flux
were filtered out. -/
theorem C10_flux_samples_sorted_aligned_nonzero
    (src_data : CalRecord) (hwf : mmWellFormed src_data) :
    ∃ f fl, get_flux_data src_data = .ok (f, fl) ∧
      List.Chain' (· < ·) f ∧
      fl.length = f.length ∧
      ∀ p ∈ f.zip fl, entryFromRecord src_data p := by
  rcases buildS_ok hwf [] with ⟨S, hS⟩
  refine ⟨List.insertionSort (fun a b => a ≤ b) (S.map Prod.fst),
    (List.insertionSort (fun a b => a ≤ b) (S.map Prod.fst)).map
      (fun k => (dlookupQ k S).getD PyVal.pnone), ?_, ?_, ?_, ?_⟩
  · unfold get_flux_data
    rw [hS]
  · have hsorted := List.sorted_insertionSort (fun a b : ℚ => a ≤ b) (S.map Prod.fst)
    have hnd : (List.insertionSort (fun a b : ℚ => a ≤ b) (S.map Prod.fst)).Nodup :=
      (List.perm_insertionSort _ _).nodup_iff.mpr (buildS_nodup (by simp) hS)
    rw [List.chain'_iff_pairwise]
    exact (List.Pairwise.and hsorted hnd).imp
      (fun hab => lt_of_le_of_ne hab.1 hab.2)
  · rw [List.length_map]
  · intro p hp
    rcases mem_zip_map hp with ⟨hk, hv⟩
    have hk1 : p.1 ∈ S.map Prod.fst := (List.mem_insertionSort _).mp hk
    rcases dlookupQ_mem hk1 with ⟨v, hv1, hv2⟩
    have hp2 : p.2 = v := by rw [hv, hv1]; rfl
    rcases buildS_mem hS (p.1, v) hv2 with hacc | hrec
    · cases hacc
    · rcases hrec with ⟨k, m, hmem, h1, h2, h3, h4, h5, h6⟩
      exact ⟨k, m, by rwa [hp2], h1, h2, h3, h4, by rwa [hp2], by rwa [hp2]⟩

/-- Witness for C10: a record with bands `mm7` (flux 3), `mm30` (flux 2),
a filtered `None` at `mm200`, a filtered zero at `mm13`, and a non-band key
`ra`. -/
theorem C10_flux_samples_witness :
    mmWellFormed [(['m', 'm', '7'], PyVal.num 3), (['r', 'a'], PyVal.num 1),
      (['m', 'm', '2', '0', '0'], PyVal.pnone),
      (['m', 'm', '1', '3'], PyVal.num 0),
      (['m', 'm', '3', '0'], PyVal.num 2)] ∧
    (∃ f fl,
      get_flux_data [(['m', 'm', '7'], PyVal.num 3), (['r', 'a'], PyVal.num 1),
          (['m', 'm', '2', '0', '0'], PyVal.pnone),
          (['m', 'm', '1', '3'], PyVal.num 0),
          (['m', 'm', '3', '0'], PyVal.num 2)] = .ok (f, fl) ∧
      List.Chain' (· < ·) f ∧
      fl.length = f.length ∧
      ∀ p ∈ f.zip fl,
        entryFromRecord
          [(['m', 'm', '7'], PyVal.num 3), (['r', 'a'], PyVal.num 1),
           (['m', 'm', '2', '0', '0'], PyVal.pnone),
           (['m', 'm', '1', '3'], PyVal.num 0),
           (['m', 'm', '3', '0'], PyVal.num 2)] p) := by
  have hwf : mmWellFormed [(['m', 'm', '7'], PyVal.num 3),
      (['r', 'a'], PyVal.num 1), (['m', 'm', '2', '0', '0'], PyVal.pnone),
      (['m', 'm', '1', '3'], PyVal.num 0),
      (['m', 'm', '3', '0'], PyVal.num 2)] := by
    intro p hp hmm
    simp only [List.mem_cons, List.not_mem_nil, or_false] at hp
    rcases hp with rfl | rfl | rfl | rfl | rfl
    · exact ⟨7, by decide, by decide⟩
    · exact absurd hmm (by decide)
    · exact ⟨200, by decide, by decide⟩
    · exact ⟨13, by decide, by decide⟩
    · exact ⟨30, by decide, by decide⟩
  exact ⟨hwf, C10_flux_samples_sorted_aligned_nonzero _ hwf⟩

/-- Claim C1 as amended: every call of `get_calibrator_flux` that returns
carries provenance `some "Planet"` (capitalized, from the planet path) or
`none` (the unresolved path); the tags `"planet"`, `"catalog-static"` and
`"catalog-variable"` of the claim are never produced. -/
theorem C1_amended_provenance_planet_or_none {D : Type} (O : EphemOracle D)
    (source : String) (freq : ℝ) (date : D)
    (p : Option ℝ × Option String)
    (h : get_calibrator_flux O source freq date = .ok p) :
    p.2 = some "Planet" ∨ p.2 = none := by
  unfold get_calibrator_flux at h
  by_cases hmem : source ∈ Planets
  · rw [if_pos hmem] at h
    cases hp : get_planet_flux O source freq date with
    | error e => rw [hp] at h; cases h
    | ok fl =>
      rw [hp] at h
      simp only [Except.map, Except.ok.injEq] at h
      subst h
      exact Or.inl rfl
  · rw [if_neg hmem] at h
    rcases hs : source.toList with _ | ⟨c0, _ | ⟨c1, rest⟩⟩ <;> rw [hs] at h
    · cases h
    · cases h
    · dsimp only at h
      by_cases hc : c1 = 'C' ∨ c0 = 'J' ∨ c0 = 'B'
      · rw [if_pos hc] at h; cases h
      · rw [if_neg hc] at h
        simp only [Except.ok.injEq] at h
        subst h
        exact Or.inr rfl

/-- Counterexample to claim C1 as stated: the resolver returns for
`"Jupiter"`, and the provenance it returns is the string `"Planet"` —
which is none of `"planet"`, `"catalog-static"`, `"catalog-variable"`, nor
absent. -/
theorem C1_counterexample :
    get_calibrator_flux testOracle "Jupiter" 1 ()
      = .ok (some (flux testOracle.bb 157 1 (2 * testOracle.radius "Jupiter" ())),
             some "Planet") ∧
    (some "Planet" : Option String) ≠ none ∧
    ("Planet" : String) ≠ "planet" ∧
    ("Planet" : String) ≠ "catalog-static" ∧
    ("Planet" : String) ≠ "catalog-variable" := by
  refine ⟨?_, by simp, by decide, by decide, by decide⟩
  unfold get_calibrator_flux
  rw [if_pos (show "Jupiter" ∈ Planets by decide)]
  unfold get_planet_flux
  rw [show pyCapitalize "Jupiter" = "Jupiter" from by decide]
  rw [if_neg (show ("Jupiter" : String) ≠ "Venus" by decide)]
  rw [if_pos rfl]
  rfl

/-- Witness for C1: a returning call on the unresolved path — source
`"xyz"` — has provenance `none`, inside the amended disjunction. -/
theorem C1_amended_witness :
    ∃ p, get_calibrator_flux testOracle "xyz" 1 () = .ok p ∧
      (p.2 = some "Planet" ∨ p.2 = none) := by
  have h : get_calibrator_flux testOracle "xyz" 1 () = .ok (none, none) := by
    unfold get_calibrator_flux
    rw [if_neg (show ("xyz" : String) ∉ Planets by decide)]
    rw [show ("xyz" : String).toList = ['x', 'y', 'z'] from by decide]
    dsimp only
    rw [if_neg (show ¬('y' = 'C' ∨ 'x' = 'J' ∨ 'x' = 'B') by decide)]
  exact ⟨(none, none),
    h, C1_amended_provenance_planet_or_none testOracle "xyz" 1 () (none, none) h⟩

/-- Positivity of the brightness-to-flux conversion: positive blackbody
intensity and positive angular diameter give positive flux. -/
theorem flux_pos {bb : ℝ → ℝ → ℝ} {Tb freq d : ℝ}
    (hI : 0 < bb Tb (freq * 1e9)) (hd : 0 < d) : 0 < flux bb Tb freq d := by
  unfold flux
  apply div_pos
  · apply mul_pos hI
    apply mul_pos Real.pi_pos
    have h2 : 0 < d / 2 := by linarith
    exact pow_pos h2 2
  · norm_num

/-- Claim C2 as amended: only the EXACT capitalized names of the `Planets`
list enter the planet path (no other case variation does — see the
counterexample), and only the six planets `get_planet_flux` implements
return: for each of `Venus`, `Jupiter`, `Saturn`, `Sun`, `Mars` and
`Mercury`, written exactly so, the resolver returns provenance
`some "Planet"` (capitalized, not the `"planet"` of the claim) and a
strictly positive flux — given that the external blackbody intensity and
the ephemeris radius of the planet are positive and the frequency is
positive (`Moon`, `Neptune`, `Pluto` and `Uranus` raise
`UnboundLocalError` inside `get_planet_flux` instead). -/
theorem C2_amended_exact_planet_names_positive_flux {D : Type}
    (O : EphemOracle D) (date : D) (source : String)
    (hsrc : source = "Venus" ∨ source = "Jupiter" ∨ source = "Saturn" ∨
      source = "Sun" ∨ source = "Mars" ∨ source = "Mercury")
    (freq : ℝ) (hfreq : 0 < freq)
    (hbb : ∀ T f, 0 < O.bb T f)
    (hrad : 0 < O.radius source date) :
    ∃ fl, get_calibrator_flux O source freq date
        = .ok (some fl, some "Planet") ∧ 0 < fl := by
  have hflux : ∀ Tb : ℝ, 0 < flux O.bb Tb freq (2 * O.radius source date) :=
    fun Tb => flux_pos (hbb _ _) (by linarith)
  rcases hsrc with rfl | rfl | rfl | rfl | rfl | rfl
  · refine ⟨flux O.bb ((planet_brightness O "Venus" freq).getD 0) freq
      (2 * O.radius "Venus" date), ?_, hflux _⟩
    unfold get_calibrator_flux
    rw [if_pos (show "Venus" ∈ Planets by decide)]
    unfold get_planet_flux
    rw [show pyCapitalize "Venus" = "Venus" from by decide]
    rw [if_pos rfl]
    rfl
  · refine ⟨flux O.bb 157 freq (2 * O.radius "Jupiter" date), ?_, hflux _⟩
    unfold get_calibrator_flux
    rw [if_pos (show "Jupiter" ∈ Planets by decide)]
    unfold get_planet_flux
    rw [show pyCapitalize "Jupiter" = "Jupiter" from by decide]
    rw [if_neg (show ("Jupiter" : String) ≠ "Venus" by decide), if_pos rfl]
    rfl
  · refine ⟨flux O.bb (0.94 * 157) freq (2 * O.radius "Saturn" date), ?_, hflux _⟩
    unfold get_calibrator_flux
    rw [if_pos (show "Saturn" ∈ Planets by decide)]
    unfold get_planet_flux
    rw [show pyCapitalize "Saturn" = "Saturn" from by decide]
    rw [if_neg (show ("Saturn" : String) ≠ "Venus" by decide),
      if_neg (show ("Saturn" : String) ≠ "Jupiter" by decide), if_pos rfl]
    rfl
  · refine ⟨flux O.bb 5800 freq (2 * O.radius "Sun" date), ?_, hflux _⟩
    unfold get_calibrator_flux
    rw [if_pos (show "Sun" ∈ Planets by decide)]
    unfold get_planet_flux
    rw [show pyCapitalize "Sun" = "Sun" from by decide]
    rw [if_neg (show ("Sun" : String) ≠ "Venus" by decide),
      if_neg (show ("Sun" : String) ≠ "Jupiter" by decide),
      if_neg (show ("Sun" : String) ≠ "Saturn" by decide), if_pos rfl]
    rfl
  · refine ⟨flux O.bb (190 * (1.524 / O.sunDistance date) ^ 2) freq
      (2 * O.radius "Mars" date), ?_, hflux _⟩
    unfold get_calibrator_flux
    rw [if_pos (show "Mars" ∈ Planets by decide)]
    unfold get_planet_flux
    rw [show pyCapitalize "Mars" = "Mars" from by decide]
    rw [if_neg (show ("Mars" : String) ≠ "Venus" by decide),
      if_neg (show ("Mars" : String) ≠ "Jupiter" by decide),
      if_neg (show ("Mars" : String) ≠ "Saturn" by decide),
      if_neg (show ("Mars" : String) ≠ "Sun" by decide), if_pos rfl]
    rfl
  · refine ⟨flux O.bb
      (330 * (10 : ℝ) ^ ((0.1 - 0.4 * (O.phase date / 100)) / (300 / freq)))
      freq (2 * O.radius "Mercury" date), ?_, hflux _⟩
    unfold get_calibrator_flux
    rw [if_pos (show "Mercury" ∈ Planets by decide)]
    unfold get_planet_flux
    rw [show pyCapitalize "Mercury" = "Mercury" from by decide]
    rw [if_neg (show ("Mercury" : String) ≠ "Venus" by decide),
      if_neg (show ("Mercury" : String) ≠ "Jupiter" by decide),
      if_neg (show ("Mercury" : String) ≠ "Saturn" by decide),
      if_neg (show ("Mercury" : String) ≠ "Sun" by decide),
      if_neg (show ("Mercury" : String) ≠ "Mars" by decide), if_pos rfl]
    rw [if_neg (ne_of_gt hfreq)]
    rfl

/-- Counterexample to claim C2 as stated: `"jupiter"` IS a letter-case
variation of the planet name `"Jupiter"` of the fixed planet set, yet the
resolver does not recognize it — the exact-match `Planets.index` fails, the
prefix tests fail too, and the call returns `(None, None)`: no `"planet"`
provenance and no positive flux. -/
theorem C2_counterexample :
    pyCapitalize "jupiter" = "Jupiter" ∧
    "Jupiter" ∈ Planets ∧
    get_calibrator_flux testOracle "jupiter" 1 () = .ok (none, none) := by
  refine ⟨by decide, by decide, ?_⟩
  unfold get_calibrator_flux
  rw [if_neg (show ("jupiter" : String) ∉ Planets by decide)]
  rw [show ("jupiter" : String).toList = ['j', 'u', 'p', 'i', 't', 'e', 'r']
    from by decide]
  dsimp only
  rw [if_neg (show ¬('u' = 'C' ∨ 'j' = 'J' ∨ 'j' = 'B') by decide)]

/-- Witness for C2: `"Jupiter"` at 1 GHz under the concrete oracle. -/
theorem C2_amended_witness :
    (0 : ℝ) < 1 ∧ (∀ T f : ℝ, 0 < testOracle.bb T f) ∧
    0 < testOracle.radius "Jupiter" () ∧
    (∃ fl, get_calibrator_flux testOracle "Jupiter" 1 ()
        = .ok (some fl, some "Planet") ∧ 0 < fl) := by
  refine ⟨by norm_num, fun T f => by norm_num [testOracle], by norm_num [testOracle], ?_⟩
  exact C2_amended_exact_planet_names_positive_flux testOracle () "Jupiter"
    (Or.inr (Or.inl rfl)) 1 (by norm_num) (fun T f => by norm_num [testOracle])
    (by norm_num [testOracle])
